import Mathlib

/-!
Shallow embedding of the core data-transformation logic of a household-finance
dashboard (src/money.py): normalization of the transaction and budget tables
(date parsing, year-month key derivation, currency-amount coercion), monthly
filtering, summary aggregation, per-category budget reconciliation and the
monthly trend pivot.  Amounts are modelled as rationals, tables as lists of
records, and the fallible date parse as `Except`.
-/

set_option maxRecDepth 10000

namespace Kakeibo

/-- A calendar date, as produced by the date parse of the transaction table. -/
structure Date where
  y : Nat
  m : Nat
  d : Nat
deriving DecidableEq

/-- Removal of the currency symbol and thousands separators: the effect of
`.replace(r'[¥,]', '', regex=True)` on one cell (money.py line 25). -/
def stripCurrency (l : List Char) : List Char :=
  l.filter (fun c => decide (c ≠ '¥' ∧ c ≠ ','))

/-- Numeric value of a list of decimal digit characters. -/
def digitsVal (l : List Char) : Nat :=
  l.foldl (fun acc c => acc * 10 + (c.toNat - '0'.toNat)) 0

/-- Parse an unsigned decimal literal (digits with an optional single
fractional part).  Models the unsigned core of `pd.to_numeric` on the decimal
literals the amount column holds; `none` is the NaN of `errors='coerce'`. -/
def parseUnsigned (l : List Char) : Option ℚ :=
  let intPart := l.takeWhile (fun c => c.isDigit)
  let rest := l.dropWhile (fun c => c.isDigit)
  if rest = [] then
    if intPart = [] then none else some ((digitsVal intPart : ℚ))
  else if rest.head? = some '.' then
    if (rest.tail).all (fun c => c.isDigit) ∧ ¬(intPart = [] ∧ rest.tail = []) then
      some ((digitsVal intPart : ℚ) +
        (digitsVal rest.tail : ℚ) / ((10 : ℚ) ^ (rest.tail).length))
    else none
  else none

/-- Parse a signed decimal literal: models `pd.to_numeric(..., errors='coerce')`
(money.py line 25) on one already-stripped cell, `none` standing for NaN. -/
def parseDecimal (l : List Char) : Option ℚ :=
  match l with
  | [] => parseUnsigned []
  | c :: rest =>
      if c = '-' then (parseUnsigned rest).map (fun q => -q)
      else if c = '+' then parseUnsigned rest
      else parseUnsigned (c :: rest)

/-- Amount coercion of money.py line 25: strip `¥` and `,`, parse as a decimal
number, and fill a failed parse (NaN) with 0 (`...fillna(0)`). -/
def coerceAmount (s : String) : ℚ :=
  (parseDecimal (stripCurrency s.data)).getD 0

/-- Split a character list on `'-'` separators. -/
def splitDash : List Char → List (List Char)
  | [] => [[]]
  | c :: rest =>
      if c = '-' then [] :: splitDash rest
      else
        match splitDash rest with
        | [] => [[c]]
        | g :: gs => (c :: g) :: gs

/-- Parse a nonempty all-digit group as a number. -/
def parseNatDigits (l : List Char) : Option Nat :=
  if l ≠ [] ∧ l.all (fun c => c.isDigit) then some (digitsVal l) else none

/-- Date parse modelling `pd.to_datetime` on the ISO-style strings the sheets
hold: `YYYY-MM-DD` for the transaction date column, `YYYY-MM` (day defaulting
to 1) for the budget year-month column; `none` is the parse failure that
`pd.to_datetime` raises as an exception (money.py lines 19 and 21). -/
def parseDate (s : String) : Option Date :=
  match (splitDash s.data).map parseNatDigits with
  | [some y, some m, some d] =>
      if 1 ≤ m ∧ m ≤ 12 ∧ 1 ≤ d ∧ d ≤ 31 then some ⟨y, m, d⟩ else none
  | [some y, some m] =>
      if 1 ≤ m ∧ m ≤ 12 then some ⟨y, m, 1⟩ else none
  | _ => none

/-- Zero-pad a month number to two digits, as `%m` does. -/
def pad2 (n : Nat) : String :=
  if n < 10 then "0" ++ toString n else toString n

/-- The derived year-month grouping key: `strftime('%Y-%m')` (money.py line 20). -/
def ymKey (d : Date) : String :=
  toString d.y ++ "-" ++ pad2 d.m

/-- A raw transaction row as fetched: all cells are strings. -/
structure RawLog where
  date : String
  category : String
  description : String
  amount : String
  flow : String
deriving DecidableEq

/-- A normalized transaction row: parsed date, derived year-month key and a
numeric amount; the flow direction (収支) stays a separate field. -/
structure LogRow where
  date : Date
  yearMonth : String
  category : String
  description : String
  amount : ℚ
  flow : String
deriving DecidableEq

/-- A raw budget row as fetched. -/
structure RawBudget where
  yearMonth : String
  category : String
  amount : String
deriving DecidableEq

/-- A normalized budget row. -/
structure BudgetRow where
  yearMonth : String
  category : String
  amount : ℚ
deriving DecidableEq

/-- Normalization of one transaction row (money.py lines 19-25): the date
parse is fallible and aborts the load, the amount coercion is total. -/
def normalizeLog (r : RawLog) : Except String LogRow :=
  match parseDate r.date with
  | none => .error r.date
  | some d =>
      .ok { date := d, yearMonth := ymKey d, category := r.category,
            description := r.description, amount := coerceAmount r.amount,
            flow := r.flow }

/-- Normalization of the whole transaction table: the first unparseable date
aborts with an error, exactly as the columnwise `pd.to_datetime` call does. -/
def normalizeLogs : List RawLog → Except String (List LogRow)
  | [] => .ok []
  | r :: rs =>
      match normalizeLog r with
      | .error e => .error e
      | .ok row =>
          match normalizeLogs rs with
          | .error e => .error e
          | .ok rows => .ok (row :: rows)

/-- Normalization of one budget row (money.py lines 21 and 23-25). -/
def normalizeBudget (r : RawBudget) : Except String BudgetRow :=
  match parseDate r.yearMonth with
  | none => .error r.yearMonth
  | some d =>
      .ok { yearMonth := ymKey d, category := r.category,
            amount := coerceAmount r.amount }

/-- Normalization of the whole budget table. -/
def normalizeBudgets : List RawBudget → Except String (List BudgetRow)
  | [] => .ok []
  | r :: rs =>
      match normalizeBudget r with
      | .error e => .error e
      | .ok row =>
          match normalizeBudgets rs with
          | .error e => .error e
          | .ok rows => .ok (row :: rows)

/-- Monthly filter on the transaction table (money.py line 34). -/
def filterMonth (rows : List LogRow) (ym : String) : List LogRow :=
  rows.filter (fun r => r.yearMonth == ym)

/-- Monthly filter on the budget table (money.py line 35). -/
def filterBudgetMonth (rows : List BudgetRow) (ym : String) : List BudgetRow :=
  rows.filter (fun r => r.yearMonth == ym)

/-- The total_income aggregate (money.py line 37): sum of amounts of 収入 rows. -/
def totalIncome (rows : List LogRow) : ℚ :=
  ((rows.filter (fun r => r.flow == "収入")).map (fun r => r.amount)).sum

/-- The total_spent aggregate (money.py line 38): sum of amounts of 支出 rows. -/
def totalSpent (rows : List LogRow) : ℚ :=
  ((rows.filter (fun r => r.flow == "支出")).map (fun r => r.amount)).sum

/-- The total_budget aggregate (money.py line 39): sum of all filtered budget amounts. -/
def totalBudget (rows : List BudgetRow) : ℚ :=
  (rows.map (fun r => r.amount)).sum

/-- The spent_pct computation (money.py line 45): percentage spent, guarded on zero budget. -/
def spent_pct (total_spent total_budget : ℚ) : ℚ :=
  if 0 < total_budget then total_spent / total_budget * 100 else 0

/-- The (category, amount) pairs the budget side of the merge groups over. -/
def budgetPairs (rows : List BudgetRow) : List (String × ℚ) :=
  rows.map (fun r => (r.category, r.amount))

/-- The (category, amount) pairs the expense side of the merge groups over:
only 支出 rows (money.py line 62). -/
def expensePairs (rows : List LogRow) : List (String × ℚ) :=
  (rows.filter (fun r => r.flow == "支出")).map (fun r => (r.category, r.amount))

/-- Per-category amount sum: `groupby('項目')['金額'].sum()` for one key. -/
def sumByCat (c : String) : List (String × ℚ) → ℚ
  | [] => 0
  | p :: rest => (if p.1 = c then p.2 else 0) + sumByCat c rest

/-- Insert a thousands separator every three digits, working on the reversed
digit list. -/
def commaGroup : List Char → List Char
  | a :: b :: c :: d :: rest => a :: b :: c :: ',' :: commaGroup (d :: rest)
  | l => l

/-- Format a natural number with thousands separators, as `f"{n:,}"` does. -/
def fmtNat (n : Nat) : String :=
  ⟨(commaGroup (Nat.toDigits 10 n).reverse).reverse⟩

/-- Truncate a rational toward zero, as Python `int()` does. -/
def truncQ (q : ℚ) : Int :=
  Int.tdiv q.num (q.den : Int)

/-- Format an integer with thousands separators. -/
def fmtInt (i : Int) : String :=
  if i < 0 then "-" ++ fmtNat i.natAbs else fmtNat i.natAbs

/-- The make_label formatter (money.py lines 69-71): the human-readable overage or
remaining text built from the truncated actual and difference amounts. -/
def make_label (actual diff : ℚ) : String :=
  let spent : Int := truncQ actual
  let d : Int := truncQ diff
  if d < 0 then "¥" ++ fmtInt spent ++ " (¥" ++ fmtNat d.natAbs ++ " オーバー!!)"
  else "¥" ++ fmtInt spent ++ " (残り ¥" ++ fmtInt d ++ ")"

/-- One row of the per-category reconciliation table (money.py lines 60-73). -/
structure CatSummary where
  category : String
  budgeted : ℚ
  actual : ℚ
  diff : ℚ
  label : String
deriving DecidableEq

/-- The ordering the reconciliation output is sorted by: ascending 差額. -/
def diffLe (r₁ r₂ : CatSummary) : Prop := r₁.diff ≤ r₂.diff

instance : DecidableRel diffLe :=
  fun a b => inferInstanceAs (Decidable (a.diff ≤ b.diff))

instance : IsTotal CatSummary diffLe :=
  ⟨fun a b => le_total a.diff b.diff⟩

instance : IsTrans CatSummary diffLe :=
  ⟨fun _ _ _ h₁ h₂ => le_trans h₁ h₂⟩

/-- The category keys of the outer merge: every category present on either
side, each once, in the deterministic (sorted) order the grouped merge
produces. -/
def catKeys (budget expenses : List (String × ℚ)) : List String :=
  List.insertionSort (fun a b => a ≤ b)
    ((budget.map Prod.fst ++ expenses.map Prod.fst).dedup)

/-- One merged row for category `c`: budgeted and actual sums (0 when the
category is absent from a side, the `.fillna(0)` of line 64), the difference
of line 66 and the label of line 73. -/
def catRow (budget expenses : List (String × ℚ)) (c : String) : CatSummary :=
  { category := c,
    budgeted := sumByCat c budget,
    actual := sumByCat c expenses,
    diff := sumByCat c budget - sumByCat c expenses,
    label := make_label (sumByCat c expenses)
      (sumByCat c budget - sumByCat c expenses) }

/-- The category reconciliation table `summary` (money.py lines 60-73):
outer-merge the per-category budget and expense sums, fill absent sides with
0, compute the difference and sort ascending by it. -/
def summary (budget expenses : List (String × ℚ)) : List CatSummary :=
  List.insertionSort diffLe ((catKeys budget expenses).map (catRow budget expenses))

/-- The distinct year-month keys of the transaction table, sorted: the index
of the `groupby('年月')` result. -/
def months (rows : List LogRow) : List String :=
  List.insertionSort (fun a b => a ≤ b) ((rows.map (fun r => r.yearMonth)).dedup)

/-- The monthly_summary pivot (money.py line 95): group the full table by year-month
and flow direction, sum amounts and pivot into (income, expense) columns with
missing combinations filled with 0. -/
def monthly_summary (rows : List LogRow) : List (String × ℚ × ℚ) :=
  (months rows).map (fun ym =>
    (ym, totalIncome (rows.filter (fun r => r.yearMonth == ym)),
         totalSpent (rows.filter (fun r => r.yearMonth == ym))))

/-- The correspondence normalization establishes between a raw transaction row
and its normalized image. -/
def NormRelLog (r : RawLog) (row : LogRow) : Prop :=
  parseDate r.date = some row.date ∧ row.yearMonth = ymKey row.date ∧
  row.category = r.category ∧ row.description = r.description ∧
  row.amount = coerceAmount r.amount ∧ row.flow = r.flow

/-- The correspondence normalization establishes between a raw budget row and
its normalized image. -/
def NormRelBudget (r : RawBudget) (row : BudgetRow) : Prop :=
  (∃ d, parseDate r.yearMonth = some d ∧ row.yearMonth = ymKey d) ∧
  row.category = r.category ∧ row.amount = coerceAmount r.amount

/-- A concrete normalized transaction row used by concrete instantiations. -/
def sampleLog : LogRow :=
  { date := ⟨2024, 1, 15⟩, yearMonth := "2024-01", category := "食費",
    description := "ランチ", amount := 1200, flow := "支出" }

/-- A concrete normalized budget row used by concrete instantiations. -/
def sampleBudget : BudgetRow :=
  { yearMonth := "2024-01", category := "食費", amount := 30000 }

/-! ### Helper lemmas -/

theorem parseUnsigned_nonneg (l : List Char) (q : ℚ)
    (h : parseUnsigned l = some q) : 0 ≤ q := by
  simp only [parseUnsigned] at h
  split_ifs at h with h₁ h₂ h₃ h₄ <;>
    first
      | exact Option.noConfusion h
      | · obtain rfl := Option.some.inj h
          positivity

theorem parseDecimal_nonneg (l : List Char) (q : ℚ)
    (hm : '-' ∉ l) (h : parseDecimal l = some q) : 0 ≤ q := by
  cases l with
  | nil =>
    simp only [parseDecimal] at h
    exact parseUnsigned_nonneg _ _ h
  | cons c rest =>
    have hc : ¬c = '-' := fun hcc => hm (hcc ▸ List.mem_cons_self c rest)
    simp only [parseDecimal] at h
    rw [if_neg hc] at h
    by_cases hp : c = '+'
    · rw [if_pos hp] at h
      exact parseUnsigned_nonneg _ _ h
    · rw [if_neg hp] at h
      exact parseUnsigned_nonneg _ _ h

theorem stripCurrency_subset (s : List Char) (c : Char)
    (h : c ∈ stripCurrency s) : c ∈ s :=
  (List.mem_filter.mp h).1

theorem coerceAmount_nonneg (s : String) (h : '-' ∉ s.data) :
    0 ≤ coerceAmount s := by
  unfold coerceAmount
  cases hp : parseDecimal (stripCurrency s.data) with
  | none => simp
  | some q =>
    have : '-' ∉ stripCurrency s.data := fun hmem => h (stripCurrency_subset _ _ hmem)
    simpa using parseDecimal_nonneg _ _ this hp

theorem sumByCat_eq_sum_map (c : String) (pairs : List (String × ℚ)) :
    sumByCat c pairs = (pairs.map (fun p => if p.1 = c then p.2 else 0)).sum := by
  induction pairs with
  | nil => rfl
  | cons p rest ih => simp [sumByCat, ih]

theorem sumByCat_perm (c : String) (p₁ p₂ : List (String × ℚ)) (h : p₁.Perm p₂) :
    sumByCat c p₁ = sumByCat c p₂ := by
  rw [sumByCat_eq_sum_map, sumByCat_eq_sum_map]
  exact (h.map _).sum_eq

theorem sumByCat_eq_zero (c : String) (pairs : List (String × ℚ))
    (h : c ∉ pairs.map Prod.fst) : sumByCat c pairs = 0 := by
  induction pairs with
  | nil => rfl
  | cons p rest ih =>
    have h₁ : ¬p.1 = c := fun he => h (by simp [he])
    have h₂ : c ∉ rest.map Prod.fst := fun he => h (by simp [he])
    simp [sumByCat, h₁, ih h₂]

theorem sum_map_add (cs : List String) (f g : String → ℚ) :
    (cs.map (fun c => f c + g c)).sum = (cs.map f).sum + (cs.map g).sum := by
  induction cs with
  | nil => simp
  | cons c rest ih => simp [ih]; ring

theorem sum_ite_of_not_mem (a : String) (x : ℚ) (cs : List String) (h : a ∉ cs) :
    (cs.map (fun c => if a = c then x else 0)).sum = 0 := by
  induction cs with
  | nil => rfl
  | cons c rest ih =>
    have h₁ : ¬a = c := fun he => h (by simp [he])
    have h₂ : a ∉ rest := fun he => h (List.mem_cons_of_mem _ he)
    simp [h₁, ih h₂]

theorem sum_ite_of_mem (a : String) (x : ℚ) (cs : List String)
    (hnd : cs.Nodup) (h : a ∈ cs) :
    (cs.map (fun c => if a = c then x else 0)).sum = x := by
  induction cs with
  | nil => cases h
  | cons c rest ih =>
    rcases List.mem_cons.mp h with rfl | hmem
    · have : a ∉ rest := (List.nodup_cons.mp hnd).1
      simp [sum_ite_of_not_mem a x rest this]
    · have h₁ : ¬a = c := fun he => (List.nodup_cons.mp hnd).1 (he ▸ hmem)
      simp [h₁, ih (List.nodup_cons.mp hnd).2 hmem]

theorem sum_sumByCat (cs : List String) (pairs : List (String × ℚ))
    (hnd : cs.Nodup) (hmem : ∀ p ∈ pairs, p.1 ∈ cs) :
    (cs.map (fun c => sumByCat c pairs)).sum = (pairs.map Prod.snd).sum := by
  induction pairs with
  | nil => simp [sumByCat]
  | cons p rest ih =>
    have hp : p.1 ∈ cs := hmem p (List.mem_cons_self _ _)
    have hrest : ∀ q ∈ rest, q.1 ∈ cs := fun q hq => hmem q (List.mem_cons_of_mem _ hq)
    calc (cs.map (fun c => sumByCat c (p :: rest))).sum
        = (cs.map (fun c => (if p.1 = c then p.2 else 0) + sumByCat c rest)).sum := by
          simp [sumByCat]
      _ = (cs.map (fun c => if p.1 = c then p.2 else 0)).sum
            + (cs.map (fun c => sumByCat c rest)).sum := sum_map_add ..
      _ = p.2 + (rest.map Prod.snd).sum := by
          rw [sum_ite_of_mem p.1 p.2 cs hnd hp, ih hrest]
      _ = ((p :: rest).map Prod.snd).sum := by simp

theorem sortLe_eq_of_perm (l₁ l₂ : List String) (h : l₁.Perm l₂) :
    List.insertionSort (fun a b => a ≤ b) l₁
      = List.insertionSort (fun a b => a ≤ b) l₂ :=
  List.eq_of_perm_of_sorted
    ((List.perm_insertionSort _ l₁).trans (h.trans (List.perm_insertionSort _ l₂).symm))
    (List.sorted_insertionSort _ l₁) (List.sorted_insertionSort _ l₂)

theorem mem_catKeys (b e : List (String × ℚ)) (c : String) :
    c ∈ catKeys b e ↔ (c ∈ b.map Prod.fst ∨ c ∈ e.map Prod.fst) := by
  simp [catKeys, List.mem_insertionSort, List.mem_dedup, List.mem_append]

theorem nodup_catKeys (b e : List (String × ℚ)) : (catKeys b e).Nodup :=
  ((List.perm_insertionSort _ _).nodup_iff).mpr (List.nodup_dedup _)

theorem catKeys_perm (b₁ b₂ e₁ e₂ : List (String × ℚ))
    (hb : b₁.Perm b₂) (he : e₁.Perm e₂) : catKeys b₁ e₁ = catKeys b₂ e₂ :=
  sortLe_eq_of_perm _ _ (((hb.map Prod.fst).append (he.map Prod.fst)).dedup)

theorem mem_months (rows : List LogRow) (ym : String) :
    ym ∈ months rows ↔ ym ∈ rows.map (fun r => r.yearMonth) := by
  simp [months, List.mem_insertionSort, List.mem_dedup]

theorem nodup_months (rows : List LogRow) : (months rows).Nodup :=
  ((List.perm_insertionSort _ _).nodup_iff).mpr (List.nodup_dedup _)

theorem normalizeLogs_ok_of (rs : List RawLog)
    (h : ∀ r ∈ rs, (parseDate r.date).isSome) :
    ∃ out, normalizeLogs rs = .ok out ∧ List.Forall₂ NormRelLog rs out := by
  induction rs with
  | nil => exact ⟨[], rfl, List.Forall₂.nil⟩
  | cons r rs ih =>
    obtain ⟨d, hd⟩ := Option.isSome_iff_exists.mp (h r (List.mem_cons_self r rs))
    obtain ⟨out, hout, hrel⟩ := ih (fun x hx => h x (List.mem_cons_of_mem r hx))
    refine ⟨{ date := d, yearMonth := ymKey d, category := r.category,
              description := r.description, amount := coerceAmount r.amount,
              flow := r.flow } :: out, ?_, ?_⟩
    · simp [normalizeLogs, normalizeLog, hd, hout]
    · exact List.Forall₂.cons ⟨hd, rfl, rfl, rfl, rfl, rfl⟩ hrel

theorem normalizeLogs_error_of (rs : List RawLog) (r : RawLog)
    (hmem : r ∈ rs) (hbad : parseDate r.date = none) :
    ∃ e, normalizeLogs rs = .error e := by
  induction rs with
  | nil => cases hmem
  | cons a rs ih =>
    rcases List.mem_cons.mp hmem with rfl | hmem₂
    · exact ⟨r.date, by simp [normalizeLogs, normalizeLog, hbad]⟩
    · obtain ⟨e, he⟩ := ih hmem₂
      cases ha : normalizeLog a with
      | error e₂ => exact ⟨e₂, by simp [normalizeLogs, ha]⟩
      | ok row => exact ⟨e, by simp [normalizeLogs, ha, he]⟩

theorem normalizeBudgets_ok_of (rs : List RawBudget)
    (h : ∀ r ∈ rs, (parseDate r.yearMonth).isSome) :
    ∃ out, normalizeBudgets rs = .ok out ∧ List.Forall₂ NormRelBudget rs out := by
  induction rs with
  | nil => exact ⟨[], rfl, List.Forall₂.nil⟩
  | cons r rs ih =>
    obtain ⟨d, hd⟩ := Option.isSome_iff_exists.mp (h r (List.mem_cons_self r rs))
    obtain ⟨out, hout, hrel⟩ := ih (fun x hx => h x (List.mem_cons_of_mem r hx))
    refine ⟨{ yearMonth := ymKey d, category := r.category,
              amount := coerceAmount r.amount } :: out, ?_, ?_⟩
    · simp [normalizeBudgets, normalizeBudget, hd, hout]
    · exact List.Forall₂.cons ⟨⟨d, hd, rfl⟩, rfl, rfl⟩ hrel

theorem normalizeLog_ok_amount (r : RawLog) (row : LogRow)
    (h : normalizeLog r = .ok row) : row.amount = coerceAmount r.amount := by
  unfold normalizeLog at h
  cases hd : parseDate r.date with
  | none => rw [hd] at h; exact Except.noConfusion h
  | some d =>
    rw [hd] at h
    obtain rfl := Except.ok.inj h
    rfl

theorem normalizeLog_amount_flow_free (r : RawLog) (f : String) :
    (normalizeLog { r with flow := f }).map (fun row => row.amount)
      = (normalizeLog r).map (fun row => row.amount) := by
  cases hd : parseDate r.date with
  | none => simp [normalizeLog, hd]
  | some d => simp [normalizeLog, hd, Except.map]

theorem normalizeLogs_amount_nonneg (rs : List RawLog) (out : List LogRow)
    (h : normalizeLogs rs = .ok out)
    (hneg : ∀ r ∈ rs, '-' ∉ r.amount.data) :
    ∀ row ∈ out, 0 ≤ row.amount := by
  induction rs generalizing out with
  | nil =>
    obtain rfl : ([] : List LogRow) = out := Except.ok.inj h
    intro row hrow
    cases hrow
  | cons a rs ih =>
    rw [normalizeLogs] at h
    cases ha : normalizeLog a with
    | error e => rw [ha] at h; exact Except.noConfusion h
    | ok row =>
      rw [ha] at h
      cases hrs : normalizeLogs rs with
      | error e => rw [hrs] at h; exact Except.noConfusion h
      | ok rows =>
        rw [hrs] at h
        obtain rfl := Except.ok.inj h
        intro row₂ hrow₂
        rcases List.mem_cons.mp hrow₂ with rfl | hmem
        · rw [normalizeLog_ok_amount a row₂ ha]
          exact coerceAmount_nonneg _ (hneg a (List.mem_cons_self a rs))
        · exact ih rows hrs (fun x hx => hneg x (List.mem_cons_of_mem a hx)) row₂ hmem

theorem totalSpent_eq_expensePairs (rows : List LogRow) :
    totalSpent rows = ((expensePairs rows).map Prod.snd).sum := by
  unfold totalSpent expensePairs
  rw [List.map_map]
  rfl

theorem sum_actual_summary (b e : List (String × ℚ)) :
    ((summary b e).map (fun r => r.actual)).sum = (e.map Prod.snd).sum := by
  have hperm : (summary b e).Perm ((catKeys b e).map (catRow b e)) :=
    List.perm_insertionSort diffLe _
  rw [(hperm.map _).sum_eq, List.map_map]
  have hco : ((fun r => r.actual) ∘ catRow b e) = fun c => sumByCat c e := rfl
  rw [hco]
  exact sum_sumByCat (catKeys b e) e (nodup_catKeys b e)
    (fun p hp => (mem_catKeys b e p.1).mpr (Or.inr (List.mem_map_of_mem Prod.fst hp)))

/-! ### Claim theorems -/

/-- C1: for every table containing an amount column, normalization strips the
currency symbol and thousands separators, parses the remainder as a decimal
number, substitutes exactly 0 for a value that fails to parse, and retains the
row: the load succeeds row-for-row whatever the amount strings hold. -/
theorem amount_coercion_tolerant (logs : List RawLog) (buds : List RawBudget)
    (hlog : ∀ r ∈ logs, (parseDate r.date).isSome)
    (hbud : ∀ r ∈ buds, (parseDate r.yearMonth).isSome) :
    (∃ out, normalizeLogs logs = .ok out ∧ out.length = logs.length ∧
      List.Forall₂ NormRelLog logs out) ∧
    (∃ out, normalizeBudgets buds = .ok out ∧ out.length = buds.length ∧
      List.Forall₂ NormRelBudget buds out) ∧
    (∀ s : String, parseDecimal (stripCurrency s.data) = none → coerceAmount s = 0) ∧
    (∀ (s : String) (q : ℚ), parseDecimal (stripCurrency s.data) = some q →
      coerceAmount s = q) := by
  refine ⟨?_, ?_, ?_, ?_⟩
  · obtain ⟨out, h₁, h₂⟩ := normalizeLogs_ok_of logs hlog
    exact ⟨out, h₁, h₂.length_eq.symm, h₂⟩
  · obtain ⟨out, h₁, h₂⟩ := normalizeBudgets_ok_of buds hbud
    exact ⟨out, h₁, h₂.length_eq.symm, h₂⟩
  · intro s h
    simp [coerceAmount, h]
  · intro s q h
    simp [coerceAmount, h]

/-- Witness for C1 at a one-row table per side, the transaction amount being
the unparseable "N/A" and the budget amount carrying symbol and separator. -/
theorem amount_coercion_tolerant_witness :
    (∃ out, normalizeLogs [⟨"2024-01-15", "食費", "ランチ", "N/A", "支出"⟩] = .ok out ∧
      out.length = [(⟨"2024-01-15", "食費", "ランチ", "N/A", "支出"⟩ : RawLog)].length ∧
      List.Forall₂ NormRelLog [⟨"2024-01-15", "食費", "ランチ", "N/A", "支出"⟩] out) ∧
    (∃ out, normalizeBudgets [⟨"2024-01", "食費", "¥12,500"⟩] = .ok out ∧
      out.length = [(⟨"2024-01", "食費", "¥12,500"⟩ : RawBudget)].length ∧
      List.Forall₂ NormRelBudget [⟨"2024-01", "食費", "¥12,500"⟩] out) ∧
    (∀ s : String, parseDecimal (stripCurrency s.data) = none → coerceAmount s = 0) ∧
    (∀ (s : String) (q : ℚ), parseDecimal (stripCurrency s.data) = some q →
      coerceAmount s = q) :=
  amount_coercion_tolerant
    [⟨"2024-01-15", "食費", "ランチ", "N/A", "支出"⟩]
    [⟨"2024-01", "食費", "¥12,500"⟩]
    (by decide) (by decide)

/-- C2 counterexample: the claim says every normalized amount is non-negative,
but the amount cell "¥-500" normalizes to the negative value -500. -/
theorem amount_nonneg_counterexample :
    (normalizeLog ⟨"2024-01-15", "食費", "返金", "¥-500", "支出"⟩).toOption.map
        (fun row => row.amount) = some (-500) ∧
      ¬(0 : ℚ) ≤ (-500 : ℚ) := by
  constructor
  · decide
  · decide

/-- C2 (amended): after normalization the amount is non-negative provided the
raw amount string contains no minus sign; flow direction is carried only in
the separate flow field — normalization never derives the amount's sign from
it (a minus sign in the raw cell is passed through as a negative amount). -/
theorem amount_nonneg_amended (logs : List RawLog) (out : List LogRow)
    (h : normalizeLogs logs = .ok out)
    (hm : ∀ r ∈ logs, '-' ∉ r.amount.data) :
    (∀ row ∈ out, 0 ≤ row.amount) ∧
    (∀ (r : RawLog) (f : String),
      (normalizeLog { r with flow := f }).map (fun row => row.amount)
        = (normalizeLog r).map (fun row => row.amount)) :=
  ⟨normalizeLogs_amount_nonneg logs out h hm, normalizeLog_amount_flow_free⟩

/-- Witness for the amended C2 at a concrete one-row table. -/
theorem amount_nonneg_amended_witness :
    (∀ row ∈
        [({ date := ⟨2024, 1, 15⟩, yearMonth := "2024-01", category := "食費",
            description := "ランチ", amount := 1200, flow := "支出" } : LogRow)],
      0 ≤ row.amount) ∧
    (∀ (r : RawLog) (f : String),
      (normalizeLog { r with flow := f }).map (fun row => row.amount)
        = (normalizeLog r).map (fun row => row.amount)) :=
  amount_nonneg_amended [⟨"2024-01-15", "食費", "ランチ", "¥1,200", "支出"⟩]
    [{ date := ⟨2024, 1, 15⟩, yearMonth := "2024-01", category := "食費",
       description := "ランチ", amount := 1200, flow := "支出" }]
    (by rfl) (by decide)

/-- C3: the reconciler is a full outer join on category — every category on
either side appears in the output with the per-category budget and expense
sums, an absent side contributing 0, and difference = budgeted − actual; a
zero-budget spending category appears with difference = −spent. -/
theorem reconciler_outer_join (b e : List (String × ℚ)) (c : String)
    (h : c ∈ b.map Prod.fst ∨ c ∈ e.map Prod.fst) :
    ∃ row ∈ summary b e,
      row.category = c ∧ row.budgeted = sumByCat c b ∧ row.actual = sumByCat c e ∧
      row.diff = row.budgeted - row.actual ∧
      (c ∉ b.map Prod.fst → row.budgeted = 0 ∧ row.diff = -row.actual) ∧
      (c ∉ e.map Prod.fst → row.actual = 0) := by
  have hc : c ∈ catKeys b e := (mem_catKeys b e c).mpr h
  refine ⟨catRow b e c, ?_, rfl, rfl, rfl, rfl, ?_, ?_⟩
  · exact (List.perm_insertionSort diffLe _).mem_iff.mpr (List.mem_map_of_mem _ hc)
  · intro hnb
    have hb0 := sumByCat_eq_zero c b hnb
    refine ⟨hb0, ?_⟩
    show sumByCat c b - sumByCat c e = -(sumByCat c e)
    rw [hb0]
    ring
  · intro hne
    exact sumByCat_eq_zero c e hne

/-- Witness for C3: budget 食費 only, spending on the budget-less 交際費;
交際費 appears with budget 0 and difference −500. -/
theorem reconciler_outer_join_witness :
    ∃ row ∈ summary [("食費", 300)] [("食費", 350), ("交際費", 500)],
      row.category = "交際費" ∧
      row.budgeted = sumByCat "交際費" [("食費", 300)] ∧
      row.actual = sumByCat "交際費" [("食費", 350), ("交際費", 500)] ∧
      row.diff = row.budgeted - row.actual ∧
      ("交際費" ∉ ([("食費", 300)] : List (String × ℚ)).map Prod.fst →
        row.budgeted = 0 ∧ row.diff = -row.actual) ∧
      ("交際費" ∉ ([("食費", 350), ("交際費", 500)] : List (String × ℚ)).map Prod.fst →
        row.actual = 0) :=
  reconciler_outer_join [("食費", 300)] [("食費", 350), ("交際費", 500)] "交際費"
    (by decide)

/-- C4: the reconciler output is sorted ascending by the difference column,
so the most-over-budget (most negative) categories come first. -/
theorem reconciler_sorted (b e : List (String × ℚ)) :
    List.Sorted diffLe (summary b e) :=
  List.sorted_insertionSort diffLe _

/-- C5: the summary aggregator's total_spent equals the sum of the
reconciler's actual column over all categories, for the same filtered month. -/
theorem total_spent_eq_sum_actual (logs : List LogRow) (budget : List BudgetRow)
    (ym : String) :
    totalSpent (filterMonth logs ym)
      = ((summary (budgetPairs (filterBudgetMonth budget ym))
            (expensePairs (filterMonth logs ym))).map (fun r => r.actual)).sum := by
  rw [totalSpent_eq_expensePairs, sum_actual_summary]

/-- C6: the reconciler is invariant under permutation of its input rows —
shuffling the budget rows and the expense rows yields the identical sorted
output list. -/
theorem reconciler_perm_invariant (b₁ b₂ e₁ e₂ : List (String × ℚ))
    (hb : b₁.Perm b₂) (he : e₁.Perm e₂) : summary b₁ e₁ = summary b₂ e₂ := by
  unfold summary
  rw [catKeys_perm b₁ b₂ e₁ e₂ hb he]
  congr 1
  apply List.map_congr_left
  intro c _
  unfold catRow
  rw [sumByCat_perm c b₁ b₂ hb, sumByCat_perm c e₁ e₂ he]

/-- Witness for C6 at concrete shuffled inputs. -/
theorem reconciler_perm_invariant_witness :
    summary [("食費", 300), ("日用品", 200)] [("食費", 350), ("交際費", 500)]
      = summary [("日用品", 200), ("食費", 300)] [("交際費", 500), ("食費", 350)] :=
  reconciler_perm_invariant _ _ _ _ (by decide) (by decide)

/-- C7: spent_percentage is total_spent / total_budget × 100 when the budget
is positive and 0 otherwise; filtering on a month absent from the data gives
empty row sets, all-zero totals and a zero percentage. -/
theorem spent_pct_guard_empty_month (s bq : ℚ) (logs : List LogRow)
    (bud : List BudgetRow) (ym : String)
    (h₁ : ym ∉ logs.map (fun r => r.yearMonth))
    (h₂ : ym ∉ bud.map (fun r => r.yearMonth)) :
    (0 < bq → spent_pct s bq = s / bq * 100) ∧
    (¬0 < bq → spent_pct s bq = 0) ∧
    filterMonth logs ym = [] ∧ filterBudgetMonth bud ym = [] ∧
    totalIncome (filterMonth logs ym) = 0 ∧ totalSpent (filterMonth logs ym) = 0 ∧
    totalBudget (filterBudgetMonth bud ym) = 0 ∧
    totalBudget (filterBudgetMonth bud ym) - totalSpent (filterMonth logs ym) = 0 ∧
    spent_pct (totalSpent (filterMonth logs ym))
      (totalBudget (filterBudgetMonth bud ym)) = 0 := by
  have hf₁ : filterMonth logs ym = [] := by
    apply List.filter_eq_nil_iff.mpr
    intro r hr
    simp only [beq_iff_eq]
    intro he
    exact h₁ (he ▸ List.mem_map_of_mem _ hr)
  have hf₂ : filterBudgetMonth bud ym = [] := by
    apply List.filter_eq_nil_iff.mpr
    intro r hr
    simp only [beq_iff_eq]
    intro he
    exact h₂ (he ▸ List.mem_map_of_mem _ hr)
  refine ⟨fun hpos => by rw [spent_pct, if_pos hpos],
          fun hneg => by rw [spent_pct, if_neg hneg], hf₁, hf₂, ?_, ?_, ?_, ?_, ?_⟩
  · rw [hf₁]; rfl
  · rw [hf₁]; rfl
  · rw [hf₂]; rfl
  · rw [hf₁, hf₂]
    simp [totalBudget, totalSpent]
  · rw [hf₁, hf₂]
    simp [spent_pct, totalBudget, totalSpent]

/-- Witness for C7: one January row in each table, filtering on 2030-12. -/
theorem spent_pct_guard_empty_month_witness :
    ((0 : ℚ) < 200 → spent_pct 50 200 = 50 / 200 * 100) ∧
    (¬(0 : ℚ) < 200 → spent_pct 50 200 = 0) ∧
    filterMonth [sampleLog] "2030-12" = [] ∧
    filterBudgetMonth [sampleBudget] "2030-12" = [] ∧
    totalIncome (filterMonth [sampleLog] "2030-12") = 0 ∧
    totalSpent (filterMonth [sampleLog] "2030-12") = 0 ∧
    totalBudget (filterBudgetMonth [sampleBudget] "2030-12") = 0 ∧
    totalBudget (filterBudgetMonth [sampleBudget] "2030-12")
      - totalSpent (filterMonth [sampleLog] "2030-12") = 0 ∧
    spent_pct (totalSpent (filterMonth [sampleLog] "2030-12"))
      (totalBudget (filterBudgetMonth [sampleBudget] "2030-12")) = 0 :=
  spent_pct_guard_empty_month 50 200 [sampleLog] [sampleBudget] "2030-12"
    (by decide) (by decide)

/-- C8: the trend aggregator yields one row per year-month present in the
full table (no duplicates, no extras), each row holding the month's income
and expense sums with absent combinations contributing 0; with income only
in month A and expense only in month B it yields exactly
[(A, income, 0), (B, 0, expense)]. -/
theorem trend_pivot (rows : List LogRow) (a b : LogRow)
    (hab : a.yearMonth < b.yearMonth) (hfa : a.flow = "収入") (hfb : b.flow = "支出") :
    ((monthly_summary rows).map Prod.fst).Nodup ∧
    (∀ ym, ym ∈ (monthly_summary rows).map Prod.fst ↔
      ym ∈ rows.map (fun r => r.yearMonth)) ∧
    (∀ p ∈ monthly_summary rows,
      p.2.1 = totalIncome (rows.filter (fun r => r.yearMonth == p.1)) ∧
      p.2.2 = totalSpent (rows.filter (fun r => r.yearMonth == p.1))) ∧
    monthly_summary [a, b] = [(a.yearMonth, a.amount, 0), (b.yearMonth, 0, b.amount)] := by
  have hfst : (monthly_summary rows).map Prod.fst = months rows := by
    unfold monthly_summary
    rw [List.map_map]
    exact List.map_id _
  have hne : a.yearMonth ≠ b.yearMonth := ne_of_lt hab
  refine ⟨?_, ?_, ?_, ?_⟩
  · rw [hfst]
    exact nodup_months rows
  · intro ym
    rw [hfst]
    exact mem_months rows ym
  · intro p hp
    obtain ⟨ym, _, rfl⟩ := List.mem_map.mp hp
    exact ⟨rfl, rfl⟩
  · have hmonths : months [a, b] = [a.yearMonth, b.yearMonth] := by
      unfold months
      have hdd : ([a, b].map (fun r => r.yearMonth)).dedup
          = [a.yearMonth, b.yearMonth] := by
        simp [List.dedup_cons_of_not_mem, hne]
      rw [hdd]
      simp [List.insertionSort, List.orderedInsert, hab.le]
    unfold monthly_summary
    rw [hmonths]
    have hba : (b.yearMonth == a.yearMonth) = false := beq_eq_false_iff_ne.mpr (Ne.symm hne)
    have hab₂ : (a.yearMonth == b.yearMonth) = false := beq_eq_false_iff_ne.mpr hne
    have hs₁ : (("収入" : String) == "収入") = true := by decide
    have hs₂ : (("収入" : String) == "支出") = false := by decide
    have hs₃ : (("支出" : String) == "収入") = false := by decide
    have hs₄ : (("支出" : String) == "支出") = true := by decide
    simp [totalIncome, totalSpent, List.filter_cons, hba, hab₂, hfa, hfb,
      hs₁, hs₂, hs₃, hs₄, hne, Ne.symm hne]

/-- Witness for C8 at two concrete rows in different months. -/
theorem trend_pivot_witness :
    ((monthly_summary []).map Prod.fst).Nodup ∧
    (∀ ym, ym ∈ (monthly_summary []).map Prod.fst ↔
      ym ∈ ([] : List LogRow).map (fun r => r.yearMonth)) ∧
    (∀ p ∈ monthly_summary [],
      p.2.1 = totalIncome (([] : List LogRow).filter (fun r => r.yearMonth == p.1)) ∧
      p.2.2 = totalSpent (([] : List LogRow).filter (fun r => r.yearMonth == p.1))) ∧
    monthly_summary
        [({ date := ⟨2024, 1, 25⟩, yearMonth := "2024-01", category := "給与",
            description := "", amount := 250000, flow := "収入" } : LogRow),
         ({ date := ⟨2024, 2, 5⟩, yearMonth := "2024-02", category := "食費",
            description := "", amount := 1200, flow := "支出" } : LogRow)]
      = [("2024-01", 250000, 0), ("2024-02", 0, 1200)] :=
  trend_pivot []
    ({ date := ⟨2024, 1, 25⟩, yearMonth := "2024-01", category := "給与",
       description := "", amount := 250000, flow := "収入" } : LogRow)
    ({ date := ⟨2024, 2, 5⟩, yearMonth := "2024-02", category := "食費",
       description := "", amount := 1200, flow := "支出" } : LogRow)
    (String.lt_iff_toList_lt.mpr (by decide)) (by decide) (by decide)

/-- C9: an unparseable transaction date aborts the whole load with an error,
while amounts can never abort it — when every date parses the load succeeds
and every amount is coerced (unparseable amounts absorbed as 0 via the
correspondence's `coerceAmount`). -/
theorem date_error_aborts (logs : List RawLog) :
    ((∃ r ∈ logs, parseDate r.date = none) → ∃ e, normalizeLogs logs = .error e) ∧
    ((∀ r ∈ logs, (parseDate r.date).isSome) →
      ∃ out, normalizeLogs logs = .ok out ∧ List.Forall₂ NormRelLog logs out) := by
  constructor
  · rintro ⟨r, hmem, hbad⟩
    exact normalizeLogs_error_of logs r hmem hbad
  · exact normalizeLogs_ok_of logs

/-- Witness for C9: a table whose single row has the unparseable date
"not-a-date" and the unparseable amount "N/A" — the load aborts for the date. -/
theorem date_error_aborts_witness :
    (∃ e, normalizeLogs [⟨"not-a-date", "食費", "ランチ", "N/A", "支出"⟩]
      = .error e) :=
  (date_error_aborts [⟨"not-a-date", "食費", "ランチ", "N/A", "支出"⟩]).1
    ⟨⟨"not-a-date", "食費", "ランチ", "N/A", "支出"⟩, List.mem_cons_self _ _, by decide⟩

/-- C10: amount coercion preserves a leading minus sign — a currency symbol
followed by a negative decimal normalizes to the negative value, not 0. -/
theorem negative_amount_passthrough (s : String) (q : ℚ) (c : Char) (rest : List Char)
    (hs : stripCurrency s.data = c :: rest) (hc : c.isDigit = true)
    (hp : parseDecimal (stripCurrency s.data) = some q) :
    coerceAmount ("¥-" ++ s) = -q := by
  have hdata : ("¥-" ++ s).data = '¥' :: '-' :: s.data := rfl
  have hstrip : stripCurrency ('¥' :: '-' :: s.data) = '-' :: stripCurrency s.data := rfl
  rw [coerceAmount, hdata, hstrip, hs]
  have h₁ : parseDecimal ('-' :: c :: rest)
      = (parseUnsigned (c :: rest)).map (fun x => -x) := by
    simp [parseDecimal]
  rw [hs] at hp
  have hcm : ¬c = '-' := by
    intro h
    rw [h] at hc
    exact absurd hc (by decide)
  have hcp : ¬c = '+' := by
    intro h
    rw [h] at hc
    exact absurd hc (by decide)
  have h₂ : parseUnsigned (c :: rest) = some q := by
    simpa [parseDecimal, hcm, hcp] using hp
  rw [h₁, h₂]
  rfl

/-- Witness for C10: "¥-500" coerces to -500. -/
theorem negative_amount_passthrough_witness :
    coerceAmount ("¥-" ++ "500") = -(500 : ℚ) :=
  negative_amount_passthrough "500" 500 '5' ['0', '0'] (by decide) (by decide) (by decide)

end Kakeibo
